import Mathlib

/-!
# Ocularum — live-session reconciliation core, shallow embedding

A shallow embedding of the Python sources of the Ocularum repository:

* `src/python/streamlink/stream_handler.py` — `StreamHandler` (process
  supervision and the active-session registry),
* `src/python/autotune/manager.py` — `AutotuneManager` (policy store and
  the reconciliation tick).

Python dictionaries are modelled as association lists with Python's
insertion semantics (an existing key keeps its position, a new key is
appended); Python's truthiness and negative list slicing are modelled
explicitly.  Effects (process spawning, persistence, fresh-id generation)
are injected as explicit parameters, so every definition is executable.
-/

namespace Ocularum

/-- A JSON-ish scalar value as stored in the settings dictionaries. -/
inductive Val where
  | str (s : String)
  | bool (b : Bool)
deriving DecidableEq, Repr

/-- Python truthiness of a settings value (`if x:`). -/
def Val.truthy : Val → Bool
  | .str s => s ≠ ""
  | .bool b => b

/-- Python's `str()` rendering of a settings value (used in f-strings). -/
def Val.render : Val → String
  | .str s => s
  | .bool b => if b then "True" else "False"

/-- A Python `dict` keyed by strings, as an association list. -/
abbrev Dict (α : Type) := List (String × α)

/-- Python `d[k]` / `d.get(k)`: the first binding of `k`. -/
def dlookup {α : Type} : Dict α → String → Option α
  | [], _ => none
  | p :: rest, k => if p.1 = k then some p.2 else dlookup rest k

/-- Python `d[k] = v`: replace in place if the key exists, else append (Python
dict insertion order). -/
def dinsert {α : Type} : Dict α → String → α → Dict α
  | [], k, v => [(k, v)]
  | p :: rest, k, v => if p.1 = k then (k, v) :: rest else p :: dinsert rest k v

/-- Python `del d[k]`: drop the binding of `k` (the first one, which is the only
one for a well-formed dict). -/
def derase {α : Type} : Dict α → String → Dict α
  | [], _ => []
  | p :: rest, k => if p.1 = k then rest else p :: derase rest k

/-- Python `k in d`. -/
def hasKey {α : Type} (d : Dict α) (k : String) : Bool :=
  (dlookup d k).isSome

/-- Python `base.update(upd)`: merge the bindings of `upd` into `base`, the
values of `upd` winning. -/
def dictUpdate {α : Type} (base upd : Dict α) : Dict α :=
  upd.foldl (fun b p => dinsert b p.1 p.2) base

/-- Well-formedness of a modelled dict: keys are pairwise distinct (true
of every Python dict). -/
def WFDict {α : Type} (d : Dict α) : Prop :=
  (d.map Prod.fst).Nodup

/-- Python's `str.lower()` (ASCII case folding, as in Lean's
`Char.toLower`). -/
def lower (s : String) : String :=
  ⟨s.data.map Char.toLower⟩

/-! ## Basic dictionary lemmas -/

theorem dlookup_dinsert_self {α : Type} (d : Dict α) (k : String) (v : α) :
    dlookup (dinsert d k v) k = some v := by
  induction d with
  | nil => simp [dinsert, dlookup]
  | cons p rest ih =>
    by_cases h : p.1 = k
    · simp [dinsert, dlookup, h]
    · simp [dinsert, dlookup, h, ih]

theorem dlookup_dinsert_ne {α : Type} (d : Dict α) (k k' : String) (v : α)
    (h : k ≠ k') : dlookup (dinsert d k v) k' = dlookup d k' := by
  induction d with
  | nil => simp [dinsert, dlookup, h]
  | cons p rest ih =>
    by_cases hp : p.1 = k
    · simp [dinsert, dlookup, hp, h]
    · by_cases hp' : p.1 = k'
      · simp [dinsert, dlookup, hp, hp', Ne.symm h]
      · simp [dinsert, dlookup, hp, hp', ih]

theorem length_dinsert_le {α : Type} (d : Dict α) (k : String) (v : α) :
    (dinsert d k v).length ≤ d.length + 1 := by
  induction d with
  | nil => simp [dinsert]
  | cons p rest ih =>
    by_cases h : p.1 = k
    · simp [dinsert, h]
    · simpa [dinsert, h] using Nat.succ_le_succ ih

theorem dlookup_eq_none_of_not_mem {α : Type} (d : Dict α) (k : String)
    (h : k ∉ d.map Prod.fst) : dlookup d k = none := by
  induction d with
  | nil => simp [dlookup]
  | cons p rest ih =>
    have hp : ¬ p.1 = k := fun hh => h (by simp [hh])
    simp only [dlookup, if_neg hp]
    exact ih (fun hmem => h (List.mem_cons_of_mem _ hmem))

theorem dlookup_derase_self {α : Type} (d : Dict α) (k : String)
    (hwf : WFDict d) : dlookup (derase d k) k = none := by
  induction d with
  | nil => simp [derase, dlookup]
  | cons p rest ih =>
    have hwf' : WFDict rest := (List.nodup_cons.mp hwf).2
    by_cases h : p.1 = k
    · -- the erased binding was the head; `k` cannot recur in `rest`
      have hk : k ∉ rest.map Prod.fst := h ▸ (List.nodup_cons.mp hwf).1
      simp only [derase, if_pos h]
      exact dlookup_eq_none_of_not_mem rest k hk
    · simp [derase, dlookup, h, ih hwf']

theorem dlookup_derase_ne {α : Type} (d : Dict α) (k k' : String)
    (h : k ≠ k') : dlookup (derase d k) k' = dlookup d k' := by
  induction d with
  | nil => simp [derase, dlookup]
  | cons p rest ih =>
    by_cases hp : p.1 = k
    · simp [derase, dlookup, hp, h]
    · by_cases hp' : p.1 = k'
      · simp [derase, dlookup, hp, hp', Ne.symm h]
      · simp [derase, dlookup, hp, hp', ih]

/-! ## Case folding lemmas -/

theorem char_toNat_ofNat (n : Nat) (h : n < 55296) : (Char.ofNat n).toNat = n := by
  have hv : n.isValidChar := Or.inl h
  rw [Char.ofNat, dif_pos hv]
  simp [Char.ofNatAux, Char.toNat, UInt32.toNat, BitVec.toNat_ofNatLt]

theorem char_toLower_eq_of_not (c : Char) (h : ¬(c.toNat ≥ 65 ∧ c.toNat ≤ 90)) :
    c.toLower = c := by
  simp [Char.toLower, h]

theorem char_toLower_eq_of (c : Char) (h : c.toNat ≥ 65 ∧ c.toNat ≤ 90) :
    c.toLower = Char.ofNat (c.toNat + 32) := by
  simp [Char.toLower, h]

theorem char_toLower_idem (c : Char) : c.toLower.toLower = c.toLower := by
  by_cases h : c.toNat ≥ 65 ∧ c.toNat ≤ 90
  · rw [char_toLower_eq_of c h]
    apply char_toLower_eq_of_not
    have hlt : c.toNat + 32 < 55296 := by omega
    rw [char_toNat_ofNat _ hlt]
    omega
  · rw [char_toLower_eq_of_not c h, char_toLower_eq_of_not c h]

theorem lower_lower (s : String) : lower (lower s) = lower s := by
  simp only [lower, List.map_map]
  exact congrArg String.mk
    (List.map_congr_left (fun a _ => char_toLower_idem a))

/-! ## StreamHandler (`src/python/streamlink/stream_handler.py`)

The active-stream registry maps a stream id to the details recorded at
start time (`channel`, `quality`; wall-clock fields are irrelevant to the
claims and omitted).  Process spawning is injected as
`launch : String → Val → Except String Unit` (`.error e` models
`create_subprocess_exec` raising with message `e`), and the random id
suffix (`os.urandom(4).hex()`) as an explicit `nonce` string. -/

structure StreamInfo where
  channel : String
  quality : Val
deriving DecidableEq, Repr

abbrev Registry := Dict StreamInfo

abbrev LaunchEnv := String → Val → Except String Unit

/-- Model of `StreamHandler.start_stream(channel, quality)`: returns the Python
`(success, stream_id_or_error)` pair together with the updated registry. -/
def start_stream (reg : Registry) (launch : LaunchEnv) (nonce : String)
    (channel : String) (quality : Val) : (Bool × String) × Registry :=
  if channel = "" then
    ((false, "Channel name is required"), reg)
  else
    let stream_id := channel ++ "_" ++ quality.render ++ "_" ++ nonce
    match launch channel quality with
    | .error e => ((false, e), reg)
    | .ok _ =>
        ((true, stream_id), dinsert reg stream_id ⟨channel, quality⟩)

/-- Model of `StreamHandler.stop_stream(stream_id)`: `termOk id = false` models the
graceful/forced termination sequence raising an exception for that
session's process. -/
def stop_stream (reg : Registry) (termOk : String → Bool)
    (stream_id : String) : Bool × Registry :=
  if hasKey reg stream_id then
    if termOk stream_id then (true, derase reg stream_id)
    else (false, reg)
  else (false, reg)

/-- Model of `StreamHandler.get_active_streams()` restricted to the fields the
manager reads (a point-in-time copy of the registry). -/
def get_active_streams (reg : Registry) : Registry := reg

/-! ## AutotuneManager (`src/python/autotune/manager.py`)

Persistence (`_save_settings`) is injected as a boolean `saveOk`
(whether `json.dump` succeeds); the in-memory state is updated first, as
in the source. -/

abbrev Settings := Dict Val

structure NotifSettingsDoc where
  enabled : Bool
  sound : Bool
  popup : Bool
deriving DecidableEq, Repr

/-- The persisted settings document, with the fields the default
documents in `_load_settings` carry. -/
structure SettingsDoc where
  autotuned_streamers : Dict Settings
  check_interval : Nat
  max_concurrent_streams : Nat
  default_quality : String
  auto_start_on_boot : Bool
  notification_settings : NotifSettingsDoc
deriving DecidableEq, Repr

/-- The default settings document built by `_load_settings` both when the
file is absent and when loading fails. -/
def defaultSettingsDoc : SettingsDoc where
  autotuned_streamers := []
  check_interval := 60
  max_concurrent_streams := 4
  default_quality := "best"
  auto_start_on_boot := true
  notification_settings := ⟨true, true, true⟩

/-- Model of `AutotuneManager._load_settings()`.  The file system is injected:
`none` = the settings file does not exist, `some none` = it exists but
`open`/`json.load` raises (`IOError`/`JSONDecodeError`), `some (some d)` =
it parses as `d`. -/
def load_settings : Option (Option SettingsDoc) → SettingsDoc
  | none => defaultSettingsDoc
  | some none => defaultSettingsDoc
  | some (some d) => d

/-- The `AutotuneManager` fields the claims touch.  `currently_live`
models the Python set `_currently_live` as a duplicate-free list. -/
structure ManagerState where
  autotuned_streamers : Dict Settings
  max_concurrent_streams : Nat
  default_quality : String
  currently_live : List String
deriving DecidableEq, Repr

/-- The settings dict `add_autotuned_streamer` builds when none are
supplied. -/
def defaultStreamerSettings (m : ManagerState) : Settings :=
  [("quality", .str m.default_quality),
   ("notifications", .bool true),
   ("auto_start", .bool true)]

/-- Model of `AutotuneManager.add_autotuned_streamer(username, settings)`. -/
def add_autotuned_streamer (m : ManagerState) (saveOk : Bool)
    (username : String) (settings : Option Settings) : Bool × ManagerState :=
  let username := lower username
  let settings := settings.getD (defaultStreamerSettings m)
  (saveOk,
   { m with autotuned_streamers := dinsert m.autotuned_streamers username settings })

/-- Model of `AutotuneManager.remove_autotuned_streamer(username)`. -/
def remove_autotuned_streamer (m : ManagerState) (saveOk : Bool)
    (username : String) : Bool × ManagerState :=
  let username := lower username
  if hasKey m.autotuned_streamers username then
    (saveOk,
     { m with autotuned_streamers := derase m.autotuned_streamers username })
  else (false, m)

/-- Model of `AutotuneManager.update_streamer_settings(username, settings)`. -/
def update_streamer_settings (m : ManagerState) (saveOk : Bool)
    (username : String) (settings : Settings) : Bool × ManagerState :=
  let username := lower username
  match dlookup m.autotuned_streamers username with
  | some existing =>
      (saveOk,
       { m with autotuned_streamers :=
           dinsert m.autotuned_streamers username (dictUpdate existing settings) })
  | none => (false, m)

/-- Model of `AutotuneManager.get_autotuned_streamers()` (a copy of the dict). -/
def get_autotuned_streamers (m : ManagerState) : Dict Settings :=
  m.autotuned_streamers

/-! ## The admission step `AutotuneManager.start_autotuned_streams` -/

/-- Python's `l[:stop]` for an `int` stop that may be negative: a negative
stop counts from the end (`len(l) + stop`, clamped at 0). -/
def pyTake {α : Type} (l : List α) (stop : Int) : List α :=
  if 0 ≤ stop then l.take stop.toNat
  else l.take (l.length - min l.length stop.natAbs)

/-- The set `{details["channel"].lower() for _, details in active_streams.items()}`. -/
def activeChannelsOf (reg : Registry) : List String :=
  reg.map (fun p => lower p.2.channel)

/-- The check `streamer_settings.get("auto_start", True)` used as a condition. -/
def autoStartEnabled (s : Settings) : Bool :=
  match dlookup s "auto_start" with
  | some v => v.truthy
  | none => true

/-- The check `streamer_settings.get("notifications", True)` used as a condition. -/
def notifyEnabled (s : Settings) : Bool :=
  match dlookup s "notifications" with
  | some v => v.truthy
  | none => true

/-- The `streams_to_start` list built by the first loop of
`start_autotuned_streams`: newly-live targets that are not already
streaming and whose policy enables auto-start, in iteration order. -/
def candidatesOf (store : Dict Settings) (activeChannels : List String)
    (newly : List String) : List String :=
  newly.filter (fun u =>
    !(activeChannels.contains (lower u)) &&
    autoStartEnabled ((dlookup store (lower u)).getD []))

/-- The `streamer_live` notifications emitted while building
`streams_to_start` (only when a callback is registered). -/
def tickNotifies (store : Dict Settings) (activeChannels : List String)
    (newly : List String) (hasCallback : Bool) : List String :=
  if hasCallback then
    (candidatesOf store activeChannels newly).filter
      (fun u => notifyEnabled ((dlookup store (lower u)).getD []))
  else []

/-- The concurrency-cap clamp:
`streams_to_start[:max_concurrent_streams - len(active_streams)]`, applied
only when `len(active_streams) + len(streams_to_start)` exceeds the cap. -/
def admittedOf (maxConc : Nat) (activeCount : Nat)
    (cands : List String) : List String :=
  if activeCount + cands.length > maxConc then
    pyTake cands ((maxConc : Int) - (activeCount : Int))
  else cands

/-- The final loop of `start_autotuned_streams`: start each admitted
candidate.  The quality lookup `self.autotuned_streamers[username]`
indexes with the *raw* username; a missing key raises `KeyError`, which
aborts the loop (the third component records the offending username). -/
def startLoop (store : Dict Settings) (dq : String) (launch : LaunchEnv)
    (nonce : Nat → String) :
    Registry → Nat → List String → List String × Registry × Option String
  | reg, _, [] => ([], reg, none)
  | reg, i, u :: rest =>
    match dlookup store u with
    | none => ([], reg, some u)
    | some s =>
      let quality := (dlookup s "quality").getD (.str dq)
      let res := start_stream reg launch (nonce i) u quality
      let tail := startLoop store dq launch nonce res.2 (i + 1) rest
      ((if res.1.1 then res.1.2 :: tail.1 else tail.1), tail.2.1, tail.2.2)

/-- Everything one call to `start_autotuned_streams` produces: the
returned list of started stream ids, the manager state and registry after
the call, the username of an uncaught `KeyError` (if any), and the
notified usernames. -/
structure TickResult where
  started : List String
  state : ManagerState
  registry : Registry
  keyError : Option String
  notified : List String
deriving DecidableEq, Repr

/-- Model of `AutotuneManager.start_autotuned_streams(live_streamers)`.  The live
set argument is a duplicate-free list; `reg` is the stream handler's
registry; `launch`/`nonce` inject process spawning and id generation;
`hasCallback` is whether a notification callback is registered. -/
def start_autotuned_streams (m : ManagerState) (reg : Registry)
    (launch : LaunchEnv) (nonce : Nat → String) (hasCallback : Bool)
    (live_streamers : List String) : TickResult :=
  if live_streamers.isEmpty then
    { started := [], state := m, registry := reg, keyError := none, notified := [] }
  else
    let newly_live := live_streamers.filter (fun u => !(m.currently_live.contains u))
    let m' := { m with currently_live := live_streamers }
    let active := get_active_streams reg
    let activeChannels := activeChannelsOf active
    let cands := candidatesOf m.autotuned_streamers activeChannels newly_live
    let notified := tickNotifies m.autotuned_streamers activeChannels newly_live hasCallback
    let admitted := admittedOf m.max_concurrent_streams active.length cands
    let res := startLoop m.autotuned_streamers m.default_quality launch nonce reg 0 admitted
    { started := res.1, state := m', registry := res.2.1,
      keyError := res.2.2, notified := notified }

/-! ## C10 — settings load fallback -/

/-- C10: when the settings file is absent or unreadable/corrupt,
`_load_settings` does not fail: it returns the default settings document,
whose streamer store is empty and whose defaults are `check_interval 60`,
`max_concurrent_streams 4`, `default_quality "best"`. -/
theorem c10_load_settings_fallback :
    load_settings none = defaultSettingsDoc ∧
    load_settings (some none) = defaultSettingsDoc ∧
    defaultSettingsDoc.autotuned_streamers = [] ∧
    defaultSettingsDoc.check_interval = 60 ∧
    defaultSettingsDoc.max_concurrent_streams = 4 ∧
    defaultSettingsDoc.default_quality = "best" :=
  ⟨rfl, rfl, rfl, rfl, rfl, rfl⟩

/-! ## C6 — start_stream failure leaves the registry untouched -/

/-- C6: a `start_stream` call that fails to launch — in particular one
with an empty channel name — returns a failure result carrying a reason
string, creates no session, and leaves the active-streams registry
exactly as it was. -/
theorem c6_start_stream_failure (reg : Registry) (launch : LaunchEnv)
    (nonce : String) (quality : Val) :
    (start_stream reg launch nonce "" quality
        = ((false, "Channel name is required"), reg)) ∧
    (∀ channel e, channel ≠ "" → launch channel quality = .error e →
        start_stream reg launch nonce channel quality = ((false, e), reg)) ∧
    (∀ channel, (start_stream reg launch nonce channel quality).1.1 = false →
        (start_stream reg launch nonce channel quality).2 = reg) := by
  refine ⟨by simp [start_stream], ?_, ?_⟩
  · intro channel e hch herr
    simp [start_stream, hch, herr]
  · intro channel hfail
    by_cases hch : channel = ""
    · simp [start_stream, hch]
    · match hl : launch channel quality with
      | .error e => simp [start_stream, hch, hl]
      | .ok _ => simp [start_stream, hch, hl] at hfail

/-- Concrete instance of `c6_start_stream_failure`: a spawn failure with
message `boom` is reported as the failure reason and the registry is
unchanged. -/
theorem c6_start_stream_failure_witness :
    start_stream [] (fun _ _ => .error "boom") "abcd" "chan" (.str "best")
      = ((false, "boom"), []) :=
  (c6_start_stream_failure [] (fun _ _ => .error "boom") "abcd"
    (.str "best")).2.1 "chan" "boom" (by decide) rfl

/-! ## C7 — stop_stream on an unknown id -/

/-- C7: `stop_stream` on a session id absent from the registry returns
`false` and leaves the registry unchanged; hence stopping the same id
twice is safe, the second call reporting not-found. -/
theorem c7_stop_stream_unknown (reg : Registry) (termOk : String → Bool)
    (sid : String) :
    (hasKey reg sid = false → stop_stream reg termOk sid = (false, reg)) ∧
    (WFDict reg → (stop_stream reg termOk sid).1 = true →
      stop_stream (stop_stream reg termOk sid).2 termOk sid
        = (false, (stop_stream reg termOk sid).2)) := by
  constructor
  · intro h
    simp [stop_stream, h]
  · intro hwf hfirst
    by_cases hk : hasKey reg sid
    · by_cases ht : termOk sid = true
      · have h2 : (stop_stream reg termOk sid).2 = derase reg sid := by
          simp [stop_stream, hk, ht]
        rw [h2]
        have hnone : hasKey (derase reg sid) sid = false := by
          simp [hasKey, dlookup_derase_self reg sid hwf]
        simp [stop_stream, hnone]
      · simp [stop_stream, hk, ht] at hfirst
    · simp [stop_stream, hk] at hfirst

/-- Concrete instance of `c7_stop_stream_unknown`: stopping the only
session removes it, and a second stop with the same id reports
not-found without changing the now-empty registry. -/
theorem c7_stop_stream_unknown_witness :
    stop_stream (stop_stream [("s1", ⟨"chan", .str "best"⟩)]
        (fun _ => true) "s1").2 (fun _ => true) "s1"
      = (false, (stop_stream [("s1", ⟨"chan", .str "best"⟩)]
          (fun _ => true) "s1").2) :=
  (c7_stop_stream_unknown [("s1", ⟨"chan", .str "best"⟩)]
    (fun _ => true) "s1").2 (by unfold WFDict; decide) rfl

/-! ## C4 — add_autotuned_streamer -/

/-- C4 counterexample: adding a streamer with a partial settings mapping
stores that mapping as-is; the unspecified `auto_start` and
`notifications` policy fields are *not* filled with the process-wide
defaults, contrary to the claim. -/
theorem c4_add_partial_counterexample :
    (add_autotuned_streamer ⟨[], 4, "best", []⟩ true "A"
        (some [("quality", Val.str "720p")])).2.autotuned_streamers
      = [("a", [("quality", Val.str "720p")])] ∧
    hasKey [("quality", Val.str "720p")] "auto_start" = false ∧
    hasKey [("quality", Val.str "720p")] "notifications" = false :=
  ⟨rfl, rfl, rfl⟩

/-- C4 (amended): `add_autotuned_streamer` lower-cases the identifier,
stores the supplied settings mapping as-is — filling the policy fields
with the process-wide defaults only when no mapping is supplied at all —
and returns the persistence outcome, so it returns `false` exactly on a
persistence I/O error. -/
theorem c4_add_streamer (m : ManagerState) (saveOk : Bool)
    (username : String) (settings : Option Settings) :
    add_autotuned_streamer m saveOk username settings
      = (saveOk, { m with
            autotuned_streamers := dinsert m.autotuned_streamers
              (lower username) (settings.getD (defaultStreamerSettings m)) }) ∧
    dlookup (defaultStreamerSettings m) "quality" = some (.str m.default_quality) ∧
    dlookup (defaultStreamerSettings m) "auto_start" = some (.bool true) ∧
    dlookup (defaultStreamerSettings m) "notifications" = some (.bool true) :=
  ⟨rfl, rfl, rfl, rfl⟩

/-! ## C1 — the previously-observed live set -/

/-- C1 counterexample: a call with an empty live set returns early and
does *not* replace the previously-observed live set, contrary to the
claim that it is replaced wholesale on every tick. -/
theorem c1_empty_live_counterexample :
    (start_autotuned_streams ⟨[], 4, "best", ["a"]⟩ []
        (fun _ _ => .ok ()) (fun _ => "abcd") false []).state.currently_live
      = ["a"] ∧ ("a" :: List.nil (α := String)) ≠ [] :=
  ⟨rfl, by decide⟩

/-- C1 (amended): for every *nonempty* live set `S`,
`start_autotuned_streams` replaces the previously-observed live set by
`S` wholesale; when `S` is empty the call returns early and the
previously-observed set is left unchanged. -/
theorem c1_live_set_snapshot (m : ManagerState) (reg : Registry)
    (launch : LaunchEnv) (nonce : Nat → String) (hasCallback : Bool)
    (live : List String) :
    (live ≠ [] →
      (start_autotuned_streams m reg launch nonce hasCallback
          live).state.currently_live = live) ∧
    (start_autotuned_streams m reg launch nonce hasCallback
        []).state.currently_live = m.currently_live := by
  constructor
  · intro hne
    have h : live.isEmpty = false := by
      cases live with
      | nil => exact absurd rfl hne
      | cons a l => rfl
    simp [start_autotuned_streams, h]
  · rfl

/-- Concrete instance of `c1_live_set_snapshot`: a nonempty live set
`["a"]` replaces a previously-observed `["b"]` wholesale. -/
theorem c1_live_set_snapshot_witness :
    (start_autotuned_streams ⟨[("a", [])], 4, "best", ["b"]⟩ []
        (fun _ _ => .ok ()) (fun _ => "abcd") false
        ["a"]).state.currently_live = ["a"] :=
  (c1_live_set_snapshot ⟨[("a", [])], 4, "best", ["b"]⟩ []
    (fun _ _ => .ok ()) (fun _ => "abcd") false ["a"]).1 (by decide)

/-! ## C8 — update_streamer_settings is a shallow merge -/

theorem dlookup_dictUpdate {α : Type} (base upd : Dict α) (k : String)
    (hwf : WFDict upd) :
    dlookup (dictUpdate base upd) k = (dlookup upd k).or (dlookup base k) := by
  induction upd generalizing base with
  | nil => simp [dictUpdate, dlookup]
  | cons q rest ih =>
    have hq : q.1 ∉ rest.map Prod.fst := (List.nodup_cons.mp hwf).1
    have hwf' : WFDict rest := (List.nodup_cons.mp hwf).2
    have hstep : dictUpdate base (q :: rest)
        = dictUpdate (dinsert base q.1 q.2) rest := rfl
    rw [hstep, ih (dinsert base q.1 q.2) hwf']
    by_cases hk : q.1 = k
    · have hrest : dlookup rest k = none :=
        dlookup_eq_none_of_not_mem rest k (hk ▸ hq)
      simp [dlookup, hrest, hk, dlookup_dinsert_self]
    · simp [dlookup, hk, dlookup_dinsert_ne base q.1 k q.2 hk]

/-- C8: on a tracked target, `update_streamer_settings` shallow-merges
the supplied partial settings into the stored ones — supplied keys
override, absent keys keep their stored values — leaves every other
target's entry untouched, and returns the persistence outcome; on an
untracked target it returns `false` and changes nothing. -/
theorem c8_update_shallow_merge (m : ManagerState) (saveOk : Bool)
    (username : String) (settings : Settings) :
    (∀ old, dlookup m.autotuned_streamers (lower username) = some old →
      WFDict settings →
      update_streamer_settings m saveOk username settings
        = (saveOk, { m with
            autotuned_streamers := dinsert m.autotuned_streamers
              (lower username) (dictUpdate old settings) }) ∧
      (∀ k, dlookup (dictUpdate old settings) k
          = (dlookup settings k).or (dlookup old k)) ∧
      (∀ k, k ≠ lower username →
        dlookup (dinsert m.autotuned_streamers (lower username)
            (dictUpdate old settings)) k
          = dlookup m.autotuned_streamers k)) ∧
    (dlookup m.autotuned_streamers (lower username) = none →
      update_streamer_settings m saveOk username settings = (false, m)) := by
  constructor
  · intro old hold hwf
    refine ⟨?_, fun k => dlookup_dictUpdate old settings k hwf,
      fun k hk => dlookup_dinsert_ne _ _ _ _ (Ne.symm hk)⟩
    simp [update_streamer_settings, hold]
  · intro hnone
    simp [update_streamer_settings, hnone]

/-- Concrete instance of `c8_update_shallow_merge`: updating `A`'s
policy with a partial `{quality: 720p}` overrides `quality` and keeps
the stored `auto_start` value. -/
theorem c8_update_shallow_merge_witness :
    update_streamer_settings
        ⟨[("a", [("quality", Val.str "best"), ("auto_start", Val.bool false)])],
          4, "best", []⟩ true "A" [("quality", Val.str "720p")]
      = (true, ⟨[("a", [("quality", Val.str "720p"), ("auto_start", Val.bool false)])],
          4, "best", []⟩) := by
  have h := (c8_update_shallow_merge
      ⟨[("a", [("quality", Val.str "best"), ("auto_start", Val.bool false)])],
        4, "best", []⟩ true "A" [("quality", Val.str "720p")]).1
      [("quality", Val.str "best"), ("auto_start", Val.bool false)]
      (by decide) (by unfold WFDict; decide)
  exact h.1

/-! ## C2 — admission control and the concurrency cap -/

/-- When the active count is within the cap, the clamp keeps exactly the
first `max_concurrent − active` candidates (tick order). -/
theorem admittedOf_eq_take (maxConc activeCount : Nat) (cands : List String)
    (h : activeCount ≤ maxConc) :
    admittedOf maxConc activeCount cands
      = cands.take (maxConc - activeCount) := by
  unfold admittedOf
  split
  · unfold pyTake
    have h0 : (0 : Int) ≤ (maxConc : Int) - (activeCount : Int) := by omega
    rw [if_pos h0]
    congr 1
    omega
  · rename_i hle
    exact (List.take_of_length_le (by omega)).symm

theorem length_start_stream_le (reg : Registry) (launch : LaunchEnv)
    (nonce : String) (channel : String) (quality : Val) :
    (start_stream reg launch nonce channel quality).2.length ≤ reg.length + 1 := by
  unfold start_stream
  by_cases hch : channel = ""
  · simp [hch]
  · simp only [if_neg hch]
    match launch channel quality with
    | .error e => exact Nat.le_succ _
    | .ok _ => exact length_dinsert_le _ _ _

theorem length_startLoop_le (store : Dict Settings) (dq : String)
    (launch : LaunchEnv) (nonce : Nat → String) (reg : Registry) (i : Nat)
    (us : List String) :
    (startLoop store dq launch nonce reg i us).2.1.length
      ≤ reg.length + us.length := by
  induction us generalizing reg i with
  | nil => simp [startLoop]
  | cons u rest ih =>
    simp only [startLoop]
    match dlookup store u with
    | none => simp
    | some s =>
      have h1 := length_start_stream_le reg launch (nonce i) u
        ((dlookup s "quality").getD (.str dq))
      have h2 := ih (start_stream reg launch (nonce i) u
        ((dlookup s "quality").getD (.str dq))).2 (i + 1)
      simp only [List.length_cons]
      omega

/-- C2 counterexample: with `max_concurrent_streams = 1` and two sessions
already active, the clamp `streams_to_start[:1 - 2]` is a *negative*
Python slice keeping all but the last candidate, so one more stream is
started and the session count after the tick is 3 > 1. -/
theorem c2_negative_slice_counterexample :
    (start_autotuned_streams ⟨[("a", []), ("b", [])], 1, "best", []⟩
        [("s1", ⟨"x", .str "best"⟩), ("s2", ⟨"y", .str "best"⟩)]
        (fun _ _ => .ok ()) (fun _ => "abcd") false
        ["a", "b"]).registry.length = 3 ∧ ¬ (3 ≤ 1) :=
  ⟨rfl, by decide⟩

/-- C2 (amended): provided the active-session count at the start of the
tick does not exceed `max_concurrent_streams`, the admission step starts
exactly the first `max_concurrent − count(active)` candidates (in tick
order, the rest dropped for this tick) and the session count after the
tick never exceeds `max_concurrent_streams`.  (When the count already
exceeds the cap the clamp degenerates to a negative Python slice and the
bound fails, per the counterexample.) -/
theorem c2_admission_cap (m : ManagerState) (reg : Registry)
    (launch : LaunchEnv) (nonce : Nat → String) (hasCallback : Bool)
    (live : List String) (hcap : reg.length ≤ m.max_concurrent_streams) :
    (∀ cands, admittedOf m.max_concurrent_streams reg.length cands
        = cands.take (m.max_concurrent_streams - reg.length)) ∧
    (start_autotuned_streams m reg launch nonce hasCallback
        live).registry.length ≤ m.max_concurrent_streams := by
  refine ⟨fun cands => admittedOf_eq_take _ _ cands hcap, ?_⟩
  unfold start_autotuned_streams
  by_cases hl : live.isEmpty
  · simpa [hl] using hcap
  · simp only [hl, Bool.false_eq_true, if_false]
    set newly := live.filter (fun u => !(m.currently_live.contains u)) with hnew
    set cands := candidatesOf m.autotuned_streamers
      (activeChannelsOf (get_active_streams reg)) newly with hcands
    have hadm : admittedOf m.max_concurrent_streams
        (get_active_streams reg).length cands
        = cands.take (m.max_concurrent_streams - reg.length) :=
      admittedOf_eq_take _ _ cands hcap
    have hlen : (cands.take (m.max_concurrent_streams - reg.length)).length
        ≤ m.max_concurrent_streams - reg.length := by
      simp
    have hloop := length_startLoop_le m.autotuned_streamers m.default_quality
      launch nonce reg 0 (cands.take (m.max_concurrent_streams - reg.length))
    simp only [get_active_streams] at hadm ⊢
    rw [hadm]
    omega

/-- Concrete instance of `c2_admission_cap`: cap 1, empty registry, two
candidates — only the first is admitted and the registry stays within
the cap. -/
theorem c2_admission_cap_witness :
    admittedOf 1 (List.length ([] : Registry)) ["a", "b"]
      = List.take 1 ["a", "b"] ∧
    (start_autotuned_streams ⟨[("a", []), ("b", [])], 1, "best", []⟩ []
        (fun _ _ => .ok ()) (fun _ => "abcd") false
        ["a", "b"]).registry.length ≤ 1 := by
  have h := c2_admission_cap ⟨[("a", []), ("b", [])], 1, "best", []⟩ []
    (fun _ _ => .ok ()) (fun _ => "abcd") false ["a", "b"] (by decide)
  exact ⟨h.1 ["a", "b"], h.2⟩

/-! ## C5 — the admitted-candidate quality lookup -/

theorem admittedOf_subset (maxConc activeCount : Nat) (cands : List String) :
    admittedOf maxConc activeCount cands ⊆ cands := by
  unfold admittedOf pyTake
  split
  · split
    · exact List.take_subset _ _
    · exact List.take_subset _ _
  · exact fun _ hx => hx

theorem startLoop_keyError_none (store : Dict Settings) (dq : String)
    (launch : LaunchEnv) (nonce : Nat → String) (reg : Registry) (i : Nat)
    (us : List String) (h : ∀ u ∈ us, hasKey store u = true) :
    (startLoop store dq launch nonce reg i us).2.2 = none := by
  induction us generalizing reg i with
  | nil => rfl
  | cons u rest ih =>
    have hu : hasKey store u = true := h u (List.mem_cons_self u rest)
    cases hl : dlookup store u with
    | none => rw [hasKey, hl] at hu; simp at hu
    | some s =>
      simp only [startLoop, hl]
      exact ih _ _ (fun v hv => h v (List.mem_cons_of_mem u hv))

/-- C5: if every newly-live name that is not already streaming is a key
of the autotuned-streamers store, the direct quality lookup
`autotuned_streamers[username]` cannot fail and the tick raises no
`KeyError`; and for a concrete input violating the precondition — a live
name absent from the store, which still passes the `auto_start` check
because it defaults to true for unknown names — the lookup raises
`KeyError` and the remaining admitted candidates are not started. -/
theorem c5_quality_lookup :
    (∀ (m : ManagerState) (reg : Registry) (launch : LaunchEnv)
        (nonce : Nat → String) (hasCallback : Bool) (live : List String),
      (∀ u, u ∈ live → m.currently_live.contains u = false →
        (activeChannelsOf reg).contains (lower u) = false →
        hasKey m.autotuned_streamers u = true) →
      (start_autotuned_streams m reg launch nonce hasCallback
          live).keyError = none) ∧
    ((start_autotuned_streams ⟨[("real", [])], 4, "best", []⟩ []
        (fun _ _ => .ok ()) (fun _ => "abcd") false
        ["ghost", "real"]).keyError = some "ghost" ∧
     (start_autotuned_streams ⟨[("real", [])], 4, "best", []⟩ []
        (fun _ _ => .ok ()) (fun _ => "abcd") false
        ["ghost", "real"]).started = [] ∧
     (start_autotuned_streams ⟨[("real", [])], 4, "best", []⟩ []
        (fun _ _ => .ok ()) (fun _ => "abcd") false
        ["ghost", "real"]).registry = []) := by
  refine ⟨?_, rfl, rfl, rfl⟩
  intro m reg launch nonce hasCallback live hpre
  unfold start_autotuned_streams
  by_cases hl : live.isEmpty
  · simp [hl]
  · simp only [hl, Bool.false_eq_true, if_false]
    apply startLoop_keyError_none
    intro u hu
    have hc : u ∈ candidatesOf m.autotuned_streamers
        (activeChannelsOf (get_active_streams reg))
        (live.filter (fun v => !(m.currently_live.contains v))) :=
      admittedOf_subset _ _ _ hu
    have hc' := List.mem_filter.mp hc
    have hnew := List.mem_filter.mp hc'.1
    have hpred := hc'.2
    have hlive : u ∈ live := hnew.1
    have hprev : m.currently_live.contains u = false := by
      have := hnew.2
      simpa using this
    have hact : (activeChannelsOf (get_active_streams reg)).contains (lower u)
        = false := by
      have := (Bool.and_eq_true _ _).mp hpred
      simpa using this.1
    exact hpre u hlive hprev hact

/-- Concrete instance of `c5_quality_lookup`: with the only live,
not-yet-streaming name tracked in the store, the tick completes with no
`KeyError`. -/
theorem c5_quality_lookup_witness :
    (start_autotuned_streams ⟨[("real", [])], 4, "best", []⟩ []
        (fun _ _ => .ok ()) (fun _ => "abcd") false
        ["real"]).keyError = none := by
  apply c5_quality_lookup.1
  intro u hu h1 h2
  rw [List.mem_singleton] at hu
  subst hu
  rfl

/-! ## C9 — policy CRUD sequences, case-insensitively keyed -/

/-- One call of the policy-CRUD command surface, with its injected
persistence outcome. -/
inductive PolicyOp where
  | addT (username : String) (settings : Option Settings) (saveOk : Bool)
  | removeT (username : String) (saveOk : Bool)
  | updateT (username : String) (settings : Settings) (saveOk : Bool)

/-- Run one CRUD call on the manager, keeping the resulting state. -/
def applyPolicyOp (m : ManagerState) : PolicyOp → ManagerState
  | .addT u s ok => (add_autotuned_streamer m ok u s).2
  | .removeT u ok => (remove_autotuned_streamer m ok u).2
  | .updateT u s ok => (update_streamer_settings m ok u s).2

/-- Run a CRUD sequence on the manager. -/
def applyPolicyOps (m : ManagerState) (ops : List PolicyOp) : ManagerState :=
  ops.foldl applyPolicyOp m

/-- The spec's "net effect" of one CRUD call on the listed store alone:
the store is keyed by the case-normalized identifier; `add` binds it,
`remove` drops it when present, `update` shallow-merges when present. -/
def specNetApply (dq : String) (d : Dict Settings) : PolicyOp → Dict Settings
  | .addT u s _ => dinsert d (lower u)
      (s.getD [("quality", .str dq), ("notifications", .bool true),
               ("auto_start", .bool true)])
  | .removeT u _ => if hasKey d (lower u) then derase d (lower u) else d
  | .updateT u s _ =>
      match dlookup d (lower u) with
      | some old => dinsert d (lower u) (dictUpdate old s)
      | none => d

/-- The spec's net effect of a CRUD sequence on the listed store. -/
def specNetEffect (dq : String) (d : Dict Settings)
    (ops : List PolicyOp) : Dict Settings :=
  ops.foldl (specNetApply dq) d

/-- All keys of a store are already case-normalized. -/
def NormKeys (d : Dict Settings) : Prop :=
  ∀ p ∈ d, lower p.1 = p.1

theorem mem_dinsert {α : Type} (d : Dict α) (k : String) (v : α)
    (p : String × α) (hp : p ∈ dinsert d k v) : p ∈ d ∨ p = (k, v) := by
  induction d with
  | nil => simp [dinsert] at hp; exact Or.inr hp
  | cons q rest ih =>
    by_cases hq : q.1 = k
    · rw [dinsert, if_pos hq] at hp
      rcases List.mem_cons.mp hp with h | h
      · exact Or.inr h
      · exact Or.inl (List.mem_cons_of_mem q h)
    · rw [dinsert, if_neg hq] at hp
      rcases List.mem_cons.mp hp with h | h
      · exact Or.inl (h ▸ List.mem_cons_self q rest)
      · rcases ih h with h' | h'
        · exact Or.inl (List.mem_cons_of_mem q h')
        · exact Or.inr h'

theorem mem_derase {α : Type} (d : Dict α) (k : String)
    (p : String × α) (hp : p ∈ derase d k) : p ∈ d := by
  induction d with
  | nil => simp [derase] at hp
  | cons q rest ih =>
    by_cases hq : q.1 = k
    · rw [derase, if_pos hq] at hp
      exact List.mem_cons_of_mem q hp
    · rw [derase, if_neg hq] at hp
      rcases List.mem_cons.mp hp with h | h
      · exact h ▸ List.mem_cons_self q rest
      · exact List.mem_cons_of_mem q (ih h)

theorem normKeys_dinsert (d : Dict Settings) (k : String) (v : Settings)
    (hd : NormKeys d) (hk : lower k = k) : NormKeys (dinsert d k v) := by
  intro p hp
  rcases mem_dinsert d k v p hp with h | h
  · exact hd p h
  · rw [h]
    exact hk

theorem normKeys_applyPolicyOp (m : ManagerState) (op : PolicyOp)
    (hd : NormKeys m.autotuned_streamers) :
    NormKeys (applyPolicyOp m op).autotuned_streamers := by
  cases op with
  | addT u s ok =>
    exact normKeys_dinsert _ _ _ hd (lower_lower u)
  | removeT u ok =>
    simp only [applyPolicyOp, remove_autotuned_streamer]
    split
    · exact fun p hp => hd p (mem_derase _ _ p hp)
    · exact hd
  | updateT u s ok =>
    simp only [applyPolicyOp, update_streamer_settings]
    split
    · exact normKeys_dinsert _ _ _ hd (lower_lower u)
    · exact hd

theorem applyPolicyOp_store (m : ManagerState) (op : PolicyOp) :
    (applyPolicyOp m op).autotuned_streamers
      = specNetApply m.default_quality m.autotuned_streamers op ∧
    (applyPolicyOp m op).default_quality = m.default_quality := by
  cases op with
  | addT u s ok =>
    exact ⟨rfl, rfl⟩
  | removeT u ok =>
    constructor
    · simp only [applyPolicyOp, remove_autotuned_streamer, specNetApply]
      split <;> rfl
    · simp only [applyPolicyOp, remove_autotuned_streamer]
      split <;> rfl
  | updateT u s ok =>
    constructor
    · simp only [applyPolicyOp, update_streamer_settings, specNetApply]
      split <;> rfl
    · simp only [applyPolicyOp, update_streamer_settings]
      split <;> rfl

theorem mem_keys_of_hasKey {α : Type} (d : Dict α) (k : String)
    (h : hasKey d k = true) : ∃ p ∈ d, p.1 = k := by
  induction d with
  | nil => simp [hasKey, dlookup] at h
  | cons q rest ih =>
    by_cases hq : q.1 = k
    · exact ⟨q, List.mem_cons_self q rest, hq⟩
    · rw [hasKey, dlookup, if_neg hq] at h
      obtain ⟨p, hp, he⟩ := ih h
      exact ⟨p, List.mem_cons_of_mem q hp, he⟩

/-- C9: policy CRUD is keyed case-insensitively — identifiers differing
only in case are interchangeable in every CRUD call; the listed store
after a sequence is exactly the sequence's net effect on the store keyed
by the normalized identifier; normalized keying is preserved by every
sequence, so a target is never tracked under two identifiers differing
only in case; and concretely `add "A"` followed by `remove "a"` leaves
the store empty. -/
theorem c9_crud_case_insensitive :
    (∀ (m : ManagerState) (ok : Bool) (u v : String),
      lower u = lower v →
      ∀ (s : Option Settings) (s' : Settings),
        add_autotuned_streamer m ok u s = add_autotuned_streamer m ok v s ∧
        remove_autotuned_streamer m ok u = remove_autotuned_streamer m ok v ∧
        update_streamer_settings m ok u s' = update_streamer_settings m ok v s') ∧
    (∀ (m : ManagerState) (ops : List PolicyOp),
      get_autotuned_streamers (applyPolicyOps m ops)
        = specNetEffect m.default_quality (get_autotuned_streamers m) ops) ∧
    (∀ (m : ManagerState) (ops : List PolicyOp),
      NormKeys (get_autotuned_streamers m) →
      NormKeys (get_autotuned_streamers (applyPolicyOps m ops))) ∧
    (∀ (d : Dict Settings), NormKeys d →
      ∀ k1 k2, hasKey d k1 = true → hasKey d k2 = true →
        lower k1 = lower k2 → k1 = k2) ∧
    get_autotuned_streamers (applyPolicyOps ⟨[], 4, "best", []⟩
        [.addT "A" none true, .removeT "a" true]) = [] := by
  refine ⟨?_, ?_, ?_, ?_, rfl⟩
  · intro m ok u v huv s s'
    refine ⟨?_, ?_, ?_⟩
    · simp [add_autotuned_streamer, huv]
    · simp [remove_autotuned_streamer, huv]
    · simp [update_streamer_settings, huv]
  · intro m ops
    induction ops generalizing m with
    | nil => rfl
    | cons op rest ih =>
      have hstep := applyPolicyOp_store m op
      calc get_autotuned_streamers (applyPolicyOps (applyPolicyOp m op) rest)
          = specNetEffect (applyPolicyOp m op).default_quality
              (get_autotuned_streamers (applyPolicyOp m op)) rest :=
            ih (applyPolicyOp m op)
        _ = specNetEffect m.default_quality
              (specNetApply m.default_quality m.autotuned_streamers op) rest := by
            rw [hstep.2, get_autotuned_streamers, hstep.1]
  · intro m ops
    induction ops generalizing m with
    | nil => exact fun h => h
    | cons op rest ih =>
      intro h
      exact ih (applyPolicyOp m op) (normKeys_applyPolicyOp m op h)
  · intro d hd k1 k2 h1 h2 hlow
    obtain ⟨p1, hp1, he1⟩ := mem_keys_of_hasKey d k1 h1
    obtain ⟨p2, hp2, he2⟩ := mem_keys_of_hasKey d k2 h2
    have hn1 : lower k1 = k1 := he1 ▸ hd p1 hp1
    have hn2 : lower k2 = k2 := he2 ▸ hd p2 hp2
    rw [← hn1, hlow, hn2]

/-- Concrete instance of `c9_crud_case_insensitive`: `remove "A"` and
`remove "a"` act identically on a store tracking `a`. -/
theorem c9_crud_case_insensitive_witness :
    remove_autotuned_streamer ⟨[("a", ([] : Settings))], 4, "best", []⟩ true "A"
      = remove_autotuned_streamer ⟨[("a", ([] : Settings))], 4, "best", []⟩
          true "a" :=
  ((c9_crud_case_insensitive.1 ⟨[("a", ([] : Settings))], 4, "best", []⟩ true
    "A" "a" (by decide) none []).2).1

end Ocularum
